import Mathlib

/-!
Verification of the soupy library (src/soupy.py): a null-safe wrapper
algebra (`Scalar`, `Node`, `Collection` and their null variants) and a lazy
expression language (`Q` expressions) over parsed document trees.

The Python code is shallowly embedded: Python values are the inductive
`Val` (a closed universe containing the value kinds the library
manipulates), wrapper objects are the inductive `Wrapper`, document
elements are `Tree`, and exceptions are modelled with `Except Err`.
All definitions are translated directly from the source; comments cite
the Python class and method each definition embeds.
-/

namespace Soupy

/-- Exception classes raised by the library and by the Python runtime
operations it invokes.  `nullValueError` is soupy's `NullValueError`
(the spec's `AbsentValue`); `valueError` with the length message is the
spec's `LengthMismatch`; `typeError` covers Python `TypeError` (including
the `Collection` construction contract and arity errors);
`attributeError` / `keyError` are the lookup failures intercepted by the
expression evaluator. -/
inductive Err where
  | nullValueError : Err
  | typeError : String → Err
  | valueError : String → Err
  | attributeError : String → Err
  | keyError : String → Err
  | indexError : String → Err
  | zeroDivisionError : Err
deriving DecidableEq, Repr

/-- A parsed document element, the external tree collaborator's data.
`elem` is a bs4 `Tag` (name, attributes, ordered children);
`navString` is a bs4 `NavigableString` text leaf. -/
inductive Tree where
  | elem : String → List (String × String) → List Tree → Tree
  | navString : String → Tree

mutual

/-- A Python value in the closed universe the library manipulates.
`wrapped` embeds a soupy wrapper object used as a plain value (wrappers
are ordinary Python objects), `tree` embeds a document element, and
`method` is a bound method of a receiver value (produced by attribute
lookup, consumed by calls). -/
inductive Val where
  | int : Int → Val
  | rat : Rat → Val
  | str : String → Val
  | bool : Bool → Val
  | none : Val
  | list : List Val → Val
  | tuple : List Val → Val
  | dict : List (Val × Val) → Val
  | tree : Tree → Val
  | method : Val → String → Val
  | wrapped : Wrapper → Val

/-- A soupy wrapper object: `scalar` is `Scalar(value)`, `node` is
`Node(element)` (a `navString` element gives the `NavigableStringNode`
variant, mirroring `Node.__new__`), `collection` is `Collection(items)`
whose construction invariant (items are wrappers) is enforced by the
type, and the three null variants are `Null()`, `NullNode()`,
`NullCollection()`. -/
inductive Wrapper where
  | scalar : Val → Wrapper
  | node : Tree → Wrapper
  | collection : List Wrapper → Wrapper
  | null : Wrapper
  | nullNode : Wrapper
  | nullCollection : Wrapper

end

/-- True for the three null variants (`isinstance(w, BaseNull)`). -/
def Wrapper.isNull : Wrapper → Bool
  | .null => true
  | .nullNode => true
  | .nullCollection => true
  | _ => false

/-- True when a Python value exposes a `children` attribute, the test
`Wrapper.wrap` uses to recognise document elements (bs4 `Tag` has
`children`; `NavigableString` and plain values do not). -/
def Val.hasChildren : Val → Bool
  | .tree (Tree.elem _ _ _) => true
  | _ => false

/-- `Wrapper.wrap(value)`: wrappers pass through unchanged, values with a
`children` attribute become `Node`, everything else becomes `Scalar`. -/
def Wrapper.wrap (v : Val) : Wrapper :=
  match v with
  | .wrapped w => w
  | .tree (Tree.elem n a c) => .node (Tree.elem n a c)
  | v => .scalar v

mutual

/-- `_unwrap(val)`: call `.val()` on wrappers, pass other values through.
Fallible because `val()` raises `NullValueError` on null variants. -/
def unwrapVal : Val → Except Err Val
  | .wrapped w => w.val
  | v => .ok v

/-- `val()` of each wrapper: `Some.val` returns the stored value
(`Node` stores the element), `Collection.val` unwraps every item into a
list, null variants (`BaseNull.val`) raise `NullValueError`. -/
def Wrapper.val : Wrapper → Except Err Val
  | .scalar v => .ok v
  | .node t => .ok (.tree t)
  | .collection items => (valList items).map Val.list
  | .null => .error .nullValueError
  | .nullNode => .error .nullValueError
  | .nullCollection => .error .nullValueError

/-- Unwrap each item of a collection in order (`Collection.iter_val`),
propagating the first `NullValueError`. -/
def valList : List Wrapper → Except Err (List Val)
  | [] => .ok []
  | w :: ws =>
      match w.val with
      | .error e => .error e
      | .ok v =>
          match valList ws with
          | .error e => .error e
          | .ok vs => .ok (v :: vs)

end

/-- `orelse(value)`: `Some.orelse` returns self, `BaseNull.orelse` wraps
and returns the fallback. -/
def Wrapper.orelse (w : Wrapper) (v : Val) : Wrapper :=
  match w with
  | .null => Wrapper.wrap v
  | .nullNode => Wrapper.wrap v
  | .nullCollection => Wrapper.wrap v
  | w => w

/-- `map(func)`: `Some.map` calls the function on the stored value
(`self._value` - for a `Collection` that is the Python list of wrapper
items) and wraps the result; `BaseNull.map` returns self.  The function
argument is modelled as an arbitrary fallible Lean function, covering
both plain Python callables and expressions (via `eval_`). -/
def Wrapper.map (w : Wrapper) (f : Val → Except Err Val) : Except Err Wrapper :=
  match w with
  | .null => .ok .null
  | .nullNode => .ok .nullNode
  | .nullCollection => .ok .nullCollection
  | .scalar v => (f v).map Wrapper.wrap
  | .node t => (f (.tree t)).map Wrapper.wrap
  | .collection items => (f (.list (items.map Val.wrapped))).map Wrapper.wrap

/-- `apply(func)`: `Some.apply` calls the function on the wrapper itself
and wraps the result; `BaseNull.apply` returns self. -/
def Wrapper.apply (w : Wrapper) (f : Val → Except Err Val) : Except Err Wrapper :=
  match w with
  | .null => .ok .null
  | .nullNode => .ok .nullNode
  | .nullCollection => .ok .nullCollection
  | w => (f (.wrapped w)).map Wrapper.wrap

/-- Python truthiness of a plain value (`bool(v)`): zero, empty and
`None` are falsy; elements and bound methods are truthy by the default
object rule. -/
def Val.truthy : Val → Bool
  | .int n => n != 0
  | .rat q => q != 0
  | .str s => s != ""
  | .bool b => b
  | .none => false
  | .list xs => !xs.isEmpty
  | .tuple xs => !xs.isEmpty
  | .dict ps => !ps.isEmpty
  | .tree _ => true
  | .method _ _ => true
  | .wrapped _ => true

/-- Truthiness of a wrapper: `BaseNull.__bool__` is `False`,
`Scalar.__bool__` is the truthiness of the stored value, `Node.__bool__`
is `True`, `Collection.__bool__` is non-emptiness.  A `Scalar` storing
another wrapper delegates to that wrapper's own truthiness, as CPython's
`bool()` would. -/
def Wrapper.truthy : Wrapper → Bool
  | .null => false
  | .nullNode => false
  | .nullCollection => false
  | .scalar (.wrapped w) => w.truthy
  | .scalar v => v.truthy
  | .node _ => true
  | .collection items => !items.isEmpty

/-- Numeric view of a value, for Python's cross-type numeric comparisons
(`True == 1`, `1 == Fraction(1)`). -/
def Val.asRat : Val → Option Rat
  | .int n => some (n : Rat)
  | .rat q => some q
  | .bool b => some (if b then (1 : Rat) else 0)
  | _ => Option.none

mutual

/-- Python `==` on values of the closed universe, structurally: numbers
compare by numeric value, containers elementwise, elements and bound
methods structurally (a model of bs4's structural `Tag.__eq__`; object
identity is not modelled), values of unrelated kinds compare unequal. -/
def valEq : Val → Val → Bool
  | .str a, .str b => a == b
  | .none, .none => true
  | .list a, .list b => valEqList a b
  | .tuple a, .tuple b => valEqList a b
  | .dict a, .dict b => valEqPairs a b
  | .tree a, .tree b => treeEq a b
  | .method r a, .method r' b => valEq r r' && a == b
  | .wrapped a, .wrapped b => wrapperEq a b
  | a, b =>
      match a.asRat, b.asRat with
      | some x, some y => x == y
      | _, _ => false

def valEqList : List Val → List Val → Bool
  | [], [] => true
  | a :: as, b :: bs => valEq a b && valEqList as bs
  | _, _ => false

def valEqPairs : List (Val × Val) → List (Val × Val) → Bool
  | [], [] => true
  | (k, v) :: as, (k', v') :: bs => valEq k k' && valEq v v' && valEqPairs as bs
  | _, _ => false

def treeEq : Tree → Tree → Bool
  | .navString a, .navString b => a == b
  | .elem n a c, .elem n' a' c' => n == n' && a == a' && treeEqList c c'
  | _, _ => false

def treeEqList : List Tree → List Tree → Bool
  | [], [] => true
  | a :: as, b :: bs => treeEq a b && treeEqList as bs
  | _, _ => false

def wrapperEq : Wrapper → Wrapper → Bool
  | .scalar a, .scalar b => valEq a b
  | .node a, .node b => treeEq a b
  | .collection a, .collection b => wrapperEqList a b
  | .null, .null => true
  | .nullNode, .nullNode => true
  | .nullCollection, .nullCollection => true
  | _, _ => false

def wrapperEqList : List Wrapper → List Wrapper → Bool
  | [], [] => true
  | a :: as, b :: bs => wrapperEq a b && wrapperEqList as bs
  | _, _ => false

end

/-- The twelve binary operator symbols `Scalar` overloads and
`Expression` captures (`>`,`>=`,`<`,`<=`,`==`,`!=`,`+`,`-`,`*`,`/`,
`//`,`%`,`**`; `/` is Python 3 true division). -/
inductive BOp where
  | gt | ge | lt | le | eq | ne
  | add | sub | mul | truediv | floordiv | mod | pow
deriving DecidableEq, Repr

/-- The comparison subset, which `Scalar` implements without the
`BaseNull` operand check (`__gt__` .. `__ne__` just `map` the raw
comparison; arithmetic methods check `isinstance(other, BaseNull)`). -/
def BOp.isCmp : BOp → Bool
  | .gt => true
  | .ge => true
  | .lt => true
  | .le => true
  | .eq => true
  | .ne => true
  | _ => false

/-- Python arithmetic on two machine integers, with Python semantics:
true division produces an exact fraction (modelling the float), floor
division and modulo use floor rounding (sign of the divisor), a negative
exponent produces a fraction, and division by zero raises. -/
def intArith : BOp → Int → Int → Except Err Val
  | .add, a, b => .ok (.int (a + b))
  | .sub, a, b => .ok (.int (a - b))
  | .mul, a, b => .ok (.int (a * b))
  | .truediv, a, b =>
      if b = 0 then .error .zeroDivisionError else .ok (.rat ((a : Rat) / (b : Rat)))
  | .floordiv, a, b =>
      if b = 0 then .error .zeroDivisionError else .ok (.int (Int.fdiv a b))
  | .mod, a, b =>
      if b = 0 then .error .zeroDivisionError else .ok (.int (Int.fmod a b))
  | .pow, a, b =>
      if 0 ≤ b then .ok (.int (a ^ b.toNat))
      else if a = 0 then .error .zeroDivisionError
      else .ok (.rat ((a : Rat) ^ b))
  | _, _, _ => .error (.typeError "not an arithmetic operator")

/-- True when a Python value is a soupy wrapper object. -/
def Val.isWrapped : Val → Bool
  | .wrapped _ => true
  | _ => false

/-- CPython dispatch of `a OP b` when the LEFT operand is a wrapper
object: `Null` defines every comparison and arithmetic dunder (all
returning `Null()`) and `BaseNull` gives every null variant
`__eq__`/`__ne__` (returning a fresh null of the same kind).  The other
left-wrapper combinations (no such dunder on the left, no reflected
dunder on a plain right operand) raise `TypeError`; non-null wrapper
operands are outside the closed model and also map to `TypeError`. -/
def leftWrapperOp (op : BOp) (w : Wrapper) : Except Err Val :=
  match op, w with
  | _, .null => .ok (.wrapped .null)
  | .eq, .nullNode => .ok (.wrapped .nullNode)
  | .ne, .nullNode => .ok (.wrapped .nullNode)
  | .eq, .nullCollection => .ok (.wrapped .nullCollection)
  | .ne, .nullCollection => .ok (.wrapped .nullCollection)
  | _, _ => .error (.typeError "unsupported operand type(s)")

/-- CPython dispatch of `a OP b` when only the RIGHT operand is a
wrapper object: the plain left operand's dunder returns
`NotImplemented`, so the right operand's reflected dunder decides.
`Null` defines all four order dunders (reflected ordering) and
`BaseNull` defines `__eq__`/`__ne__` for all three null variants; no
null variant defines reflected arithmetic (`__radd__` etc.) and
`NullNode`/`NullCollection` define no ordering dunders, so those
combinations raise `TypeError`.  Non-null wrapper operands are outside
the closed model and also map to `TypeError`. -/
def rightWrapperOp (op : BOp) (w : Wrapper) : Except Err Val :=
  match op, w with
  | .gt, .null => .ok (.wrapped .null)
  | .ge, .null => .ok (.wrapped .null)
  | .lt, .null => .ok (.wrapped .null)
  | .le, .null => .ok (.wrapped .null)
  | .eq, .null => .ok (.wrapped .null)
  | .ne, .null => .ok (.wrapped .null)
  | .eq, .nullNode => .ok (.wrapped .nullNode)
  | .ne, .nullNode => .ok (.wrapped .nullNode)
  | .eq, .nullCollection => .ok (.wrapped .nullCollection)
  | .ne, .nullCollection => .ok (.wrapped .nullCollection)
  | _, _ => .error (.typeError "unsupported operand type(s)")

/-- Python evaluation of `a OP b` on plain (non-wrapper) operands:
integer arithmetic and comparisons, string comparison and
concatenation, total `==`/`!=` (CPython's identity fallback for
incomparable kinds gives `False`); other combinations are outside the
closed model and raise `TypeError`. -/
def pyBinOpPlain : BOp → Val → Val → Except Err Val
  | .eq, a, b => .ok (.bool (valEq a b))
  | .ne, a, b => .ok (.bool (!valEq a b))
  | .gt, .int a, .int b => .ok (.bool (decide (b < a)))
  | .ge, .int a, .int b => .ok (.bool (decide (b ≤ a)))
  | .lt, .int a, .int b => .ok (.bool (decide (a < b)))
  | .le, .int a, .int b => .ok (.bool (decide (a ≤ b)))
  | .gt, .str a, .str b => .ok (.bool (decide (b < a)))
  | .ge, .str a, .str b => .ok (.bool (decide (b ≤ a)))
  | .lt, .str a, .str b => .ok (.bool (decide (a < b)))
  | .le, .str a, .str b => .ok (.bool (decide (a ≤ b)))
  | .add, .str a, .str b => .ok (.str (a ++ b))
  | op, .int a, .int b => intArith op a b
  | _, _, _ => .error (.typeError "unsupported operand type(s)")

/-- Python evaluation of `a OP b` for the operators soupy uses, on the
closed universe: a wrapper on the left dispatches through the left
operand's dunder, a wrapper only on the right dispatches through the
reflected dunder, plain operands evaluate directly. -/
def pyBinOp : BOp → Val → Val → Except Err Val
  | op, .wrapped w, _ => leftWrapperOp op w
  | op, _, .wrapped w => rightWrapperOp op w
  | op, a, b => pyBinOpPlain op a b

/-- `Scalar.__gt__` .. `Scalar.__le__` and `Some.__eq__`/`__ne__`:
`self.map(lambda x: x OP other)` - the raw operand (not unwrapped, no
null check; a `Null` operand produces `Null` through CPython's reflected
dispatch inside the lambda). -/
def Scalar.cmpOp (op : BOp) (v other : Val) : Except Err Wrapper :=
  (Wrapper.scalar v).map (fun x => pyBinOp op x other)

/-- `Scalar.__add__` .. `Scalar.__pow__`: a `BaseNull` operand is
returned as-is, any other operand is unwrapped (`_unwrap`) and
`self.map(Q OP unwrapped)` applies the operator to the stored value. -/
def Scalar.arithOp (op : BOp) (v other : Val) : Except Err Wrapper :=
  match other with
  | .wrapped .null => .ok .null
  | .wrapped .nullNode => .ok .nullNode
  | .wrapped .nullCollection => .ok .nullCollection
  | o =>
      match unwrapVal o with
      | .error e => .error e
      | .ok o' =>
          match pyBinOp op v o' with
          | .error e => .error e
          | .ok r => .ok (Wrapper.wrap r)

/-- Dispatch of `Scalar v OP other` to the comparison-style or
arithmetic-style method body. -/
def Scalar.binMethod (op : BOp) (v other : Val) : Except Err Wrapper :=
  if op.isCmp then Scalar.cmpOp op v other else Scalar.arithOp op v other

/-- The three null wrapper classes (`Null`, `NullNode`,
`NullCollection`), as receiver types of the shared `BaseNull` methods. -/
inductive NullKind where
  | scalarKind | nodeKind | collectionKind
deriving DecidableEq, Repr

/-- The null wrapper instance of each kind (`type(self)()`). -/
def NullKind.toWrapper : NullKind → Wrapper
  | .scalarKind => .null
  | .nodeKind => .nullNode
  | .collectionKind => .nullCollection

/-- `BaseNull.__eq__`: returns a fresh null of the receiver's own type,
ignoring the operand. -/
def BaseNull.eqOp (k : NullKind) (_other : Val) : Wrapper :=
  k.toWrapper

/-- `BaseNull.__ne__`: returns a fresh null of the receiver's own type,
ignoring the operand. -/
def BaseNull.neOp (k : NullKind) (_other : Val) : Wrapper :=
  k.toWrapper

/-- `BaseNull.__hash__` is `hash(type(self))`: a function of the
receiver's type alone, modelled by an injective encoding of the three
types (the tests assume the three type hashes are distinct). -/
def BaseNull.hashOp : NullKind → Nat
  | .scalarKind => 0
  | .nodeKind => 1
  | .collectionKind => 2

/-- Number of positional arguments `Collection.each` accepts:
`def each(self, *funcs)` takes any number of functions. -/
def Collection.eachAcceptsArity (_n : Nat) : Bool :=
  true

/-- Number of positional arguments `NullCollection.each` accepts:
`def each(self, func)` takes exactly one function. -/
def NullCollection.eachAcceptsArity (n : Nat) : Bool :=
  n == 1

/-- `NullCollection.each(func)` (the one accepted argument list):
returns self. -/
def NullCollection.each (_f : Val → Except Err Val) : Wrapper :=
  .nullCollection

/-- Python `zip(*args)` for `args = first :: rest`: tuples of
corresponding elements, truncated to the shortest input. -/
def pyZipMulti (first : List Val) (rest : List (List Val)) : List (List Val) :=
  rest.foldl (fun acc l => (acc.zip l).map (fun p => p.1 ++ [p.2]))
    (first.map (fun x => [x]))

/-- Python dict construction from a pair sequence: a duplicate key keeps
its first position and takes the last value (keys compared with `==`). -/
def pyDictInsert (d : List (Val × Val)) (k v : Val) : List (Val × Val) :=
  if d.any (fun p => valEq p.1 k) then
    d.map (fun p => if valEq p.1 k then (p.1, v) else p)
  else d ++ [(k, v)]

/-- Fold `pyDictInsert` over a pair sequence (`dict(pairs)`). -/
def pyDictOfPairs (ps : List (Val × Val)) : List (Val × Val) :=
  ps.foldl (fun d p => pyDictInsert d p.1 p.2) []

/-- `Collection.zip(*others)` with raw operand sequences: unwrap self's
items (`_unwrap`, which raises `NullValueError` on a null item before
anything else), compare every operand's length against `self.count()`,
raise the length-mismatch `ValueError` on any disagreement, and only
then pair: a `Collection` of `Scalar` tuples. -/
def Collection.zip (items : List Wrapper) (others : List (List Val)) :
    Except Err Wrapper :=
  match valList items with
  | .error e => .error e
  | .ok selfVals =>
      if (selfVals :: others).all (fun a => a.length == items.length) then
        .ok (.collection ((pyZipMulti selfVals others).map
          (fun tup => Wrapper.wrap (.tuple tup))))
      else
        .error (.valueError "Arguments are not all the same length")

/-- `Collection.dictzip(keys)` with a raw key sequence:
`Scalar(dict(zip(keys, self.val())))` - `self.val()` unwraps every item
(raising `NullValueError` on a null item), Python's `zip` truncates to
the shorter of the two sequences, and the pairs build a dict. -/
def Collection.dictzip (items : List Wrapper) (keys : List Val) :
    Except Err Wrapper :=
  match valList items with
  | .error e => .error e
  | .ok vals => .ok (.scalar (.dict (pyDictOfPairs (keys.zip vals))))

/-- `Collection.count()`: `Scalar(len(self))`. -/
def Collection.count (items : List Wrapper) : Wrapper :=
  .scalar (.int items.length)

mutual

/-- bs4 `Tag.text` / `get_text()`: concatenation of every string in the
subtree, in document order. -/
def Tree.text : Tree → String
  | .navString s => s
  | .elem _ _ ch => treeTextList ch

def treeTextList : List Tree → String
  | [] => ""
  | t :: ts => t.text ++ treeTextList ts

end

mutual

/-- The adapter's single-node search, bs4 `find(name)`: the first
element (Tag) with the given name among the receiver's descendants in
document order, or absent.  A text leaf has no descendants. -/
def Tree.bs4Find : Tree → String → Option Tree
  | .elem _ _ ch, nm => treeFindList ch nm
  | .navString _, _ => Option.none

/-- Search one subtree in document order, the root included. -/
def treeFindFrom : Tree → String → Option Tree
  | .elem n a c, nm =>
      if n == nm then some (.elem n a c) else treeFindList c nm
  | .navString _, _ => Option.none

/-- Search a forest in document order. -/
def treeFindList : List Tree → String → Option Tree
  | [], _ => Option.none
  | t :: ts, nm =>
      match treeFindFrom t nm with
      | some r => some r
      | Option.none => treeFindList ts nm

end

/-- `Node.find(name)`: `_wrap_node(methodcaller('find', name))` - the
adapter's absent result becomes `NullNode`, a found element becomes a
`Node`.  `NavigableStringNode.find` always returns `NullNode`. -/
def Node.find (t : Tree) (nm : String) : Wrapper :=
  match t with
  | .navString _ => .nullNode
  | t =>
      match t.bs4Find nm with
      | Option.none => .nullNode
      | some t' => .node t'

/-- The `text` property of node-like wrappers: `Node.text` is
`Scalar(element.text)` (`_wrap_scalar`), `NavigableStringNode.text` is
`Scalar` of the string itself, `NullNode.text` is `Null()`. -/
def Node.textProp : Wrapper → Except Err Wrapper
  | .node (Tree.navString s) => .ok (.scalar (.str s))
  | .node t => .ok (.scalar (.str t.text))
  | .nullNode => .ok .null
  | _ => .error (.attributeError "text")

/-- `dump` keyword arguments: Python keyword names are unique by
construction, each mapped to a function called on the wrapper. -/
def Kwargs : Type :=
  List (String × (Val → Except Err Val))

/-- One step of `Wrapper.dump`'s dict comprehension: for each keyword,
`_unwrap(self.apply(func))` - `apply` passes the wrapper itself to the
function and rewraps, `_unwrap` extracts the value (raising
`NullValueError` when `apply` produced a null, as it always does on a
`Null` receiver). -/
def dumpPairs (w : Wrapper) : Kwargs → Except Err (List (Val × Val))
  | [] => .ok []
  | (n, f) :: rest =>
      match Wrapper.apply w f with
      | .error e => .error e
      | .ok r =>
          match r.val with
          | .error e => .error e
          | .ok v =>
              match dumpPairs w rest with
              | .error e => .error e
              | .ok tail => .ok ((Val.str n, v) :: tail)

mutual

/-- `dump(**kwargs)` of each wrapper kind: `NullNode.dump` returns
`Null()`, `NullCollection.dump` returns `NullCollection()`,
`Collection.dump` maps `dump` over its items
(`self.each(Q.dump(**kwargs))`, modelled by its net effect), and every
other kind - including `Null`, which has no override - runs the generic
`Wrapper.dump`: collect `_unwrap(self.apply(func))` per keyword and wrap
the record (`Wrapper.wrap(result_dict)`). -/
def Wrapper.dump (w : Wrapper) (kwargs : Kwargs) : Except Err Wrapper :=
  match w with
  | .nullNode => .ok .null
  | .nullCollection => .ok .nullCollection
  | .collection items => (dumpItems items kwargs).map Wrapper.collection
  | w => (dumpPairs w kwargs).map (fun ps => Wrapper.wrap (.dict ps))

def dumpItems (items : List Wrapper) (kwargs : Kwargs) :
    Except Err (List Wrapper) :=
  match items with
  | [] => .ok []
  | w :: ws =>
      match Wrapper.dump w kwargs with
      | .error e => .error e
      | .ok d =>
          match dumpItems ws kwargs with
          | .error e => .error e
          | .ok ds => .ok (d :: ds)

end

/-- A soupy expression (the `Q` language): `q` is the bare `Expression`
(identity), `attr` is `Attr(name)`, `getItem` is `GetItem(key)`, `call`
is `Call(args, kwargs)` with literal arguments, `binOp` is
`BinaryOp(op, symbol, left, right)` whose operands are either
sub-expressions or literal values (`isinstance(..., Expression)` decides
at evaluation time), and `chain` is `Chain(items)`. -/
inductive Expr where
  | q : Expr
  | attr : String → Expr
  | getItem : Val → Expr
  | call : List Val → List (String × Val) → Expr
  | binOp : BOp → Expr ⊕ Val → Expr ⊕ Val → Expr
  | chain : List Expr → Expr

/-- `Expression.__iter__` / `Chain.__iter__`: a chain yields its items,
any other expression yields itself. -/
def Expr.iterItems : Expr → List Expr
  | .chain items => items
  | e => [e]

/-- `Expression._chain(other)`:
`Chain(tuple(iter(self)) + tuple(iter(other)))` - composition flattens
into a single-level chain. -/
def Expr.chainOp (a b : Expr) : Expr :=
  .chain (a.iterItems ++ b.iterItems)

/-- `operator.attrgetter(name)(val)`, the primitive behind
`Attr.eval_`, on the closed universe: a string exposes its `upper` and
`lower` bound methods, `Null`'s `__getattr__` returns `Null()`, and any
other lookup raises `AttributeError`. -/
def attrOf (v : Val) (name : String) : Except Err Val :=
  match v, name with
  | .str s, "upper" => .ok (.method (.str s) "upper")
  | .str s, "lower" => .ok (.method (.str s) "lower")
  | .wrapped .null, _ => .ok (.wrapped .null)
  | _, _ => .error (.attributeError ("no attribute " ++ name))

/-- `operator.itemgetter(key)(val)`, the primitive behind
`GetItem.eval_`: dict lookup by `==` (raising `KeyError`), sequence
indexing with Python's negative-index rule (raising `IndexError`),
`Null`'s `__getitem__` propagating `Null()`. -/
def itemOf (v : Val) (key : Val) : Except Err Val :=
  match v, key with
  | .dict ps, k =>
      match ps.find? (fun p => valEq p.1 k) with
      | some p => .ok p.2
      | Option.none => .error (.keyError "key not found")
  | .list xs, .int i =>
      let j := if i < 0 then i + xs.length else i
      match xs.get? j.toNat with
      | some x => if 0 ≤ j then .ok x else .error (.indexError "list index out of range")
      | Option.none => .error (.indexError "list index out of range")
  | .tuple xs, .int i =>
      let j := if i < 0 then i + xs.length else i
      match xs.get? j.toNat with
      | some x => if 0 ≤ j then .ok x else .error (.indexError "tuple index out of range")
      | Option.none => .error (.indexError "tuple index out of range")
  | .wrapped .null, _ => .ok (.wrapped .null)
  | _, _ => .error (.typeError "object is not subscriptable")

/-- Python `str.upper`, character by character. -/
def pyUpper (s : String) : String :=
  String.mk (s.data.map Char.toUpper)

/-- Python `str.lower`, character by character. -/
def pyLower (s : String) : String :=
  String.mk (s.data.map Char.toLower)

/-- `val.__call__(*args, **kwargs)`, the primitive behind `Call.eval_`,
on the closed universe: string bound methods `upper`/`lower` with no
arguments, `Null.__call__` returning `Null()`; anything else is not
callable. -/
def callVal (v : Val) (args : List Val) (kwargs : List (String × Val)) :
    Except Err Val :=
  match v, args, kwargs with
  | .method (.str s) "upper", [], [] => .ok (.str (pyUpper s))
  | .method (.str s) "lower", [], [] => .ok (.str (pyLower s))
  | .wrapped .null, _, _ => .ok (.wrapped .null)
  | _, _, _ => .error (.typeError "object is not callable")

/-- The enriched exception produced by the `_helpful_failure` decorator
at the first interception point: the original error, embedded with the
sub-expression that was being evaluated and the value it received (the
decorator formats these into the message and marks the exception
`_RERAISE`; outer frames re-raise the same exception object
unchanged). -/
structure RichErr where
  base : Err
  atExpr : Expr
  atVal : Val

/-- The `QDebug` namedtuple: the last full expression to raise, the
specific sub-expression that raised, the value the full expression
received, and the value the failing sub-expression received. -/
structure QDebug where
  expr : Expr
  innerExpr : Expr
  val : Val
  innerVal : Val

mutual

/-- Result (value or enriched exception) of `eval_` on each expression
variant, as decorated by `_helpful_failure`: `Expression.eval_` returns
the input, `Attr`/`GetItem`/`Call` run their primitive and intercept a
primitive failure at their own frame, `BinaryOp.eval_` evaluates each
operand that is an `Expression` (literals pass through) and then the
operator, intercepting only an operator failure at its own frame, and
`Chain.eval_` threads the value through its items left to right.
A flagged (already-enriched) exception from a sub-frame is re-raised
unchanged. -/
def evalRes : Expr → Val → Except RichErr Val
  | .q, v => .ok v
  | .attr n, v =>
      match attrOf v n with
      | .ok r => .ok r
      | .error e => .error ⟨e, .attr n, v⟩
  | .getItem k, v =>
      match itemOf v k with
      | .ok r => .ok r
      | .error e => .error ⟨e, .getItem k, v⟩
  | .call args kw, v =>
      match callVal v args kw with
      | .ok r => .ok r
      | .error e => .error ⟨e, .call args kw, v⟩
  | .binOp op l r, v =>
      match evalOperand l v with
      | .error e => .error e
      | .ok lv =>
          match evalOperand r v with
          | .error e => .error e
          | .ok rv =>
              match pyBinOp op lv rv with
              | .ok res => .ok res
              | .error e => .error ⟨e, .binOp op l r, v⟩
  | .chain items, v => evalResList items v

/-- A `BinaryOp` operand: an `Expression` operand is evaluated
recursively on the input, a literal is used as-is. -/
def evalOperand : Expr ⊕ Val → Val → Except RichErr Val
  | .inl e, v => evalRes e v
  | .inr lit, _ => .ok lit

/-- The loop body of `Chain.eval_`: `for item in items: val =
item.eval_(val)`. -/
def evalResList : List Expr → Val → Except RichErr Val
  | [], v => .ok v
  | e :: es, v =>
      match evalRes e v with
      | .ok v' => evalResList es v'
      | .error err => .error err

end

/-- The fresh-interception branch of `_helpful_failure`: build the
enriched exception from the primitive error, the active sub-expression
and its input, record `QDebug(self, self, val, val)` into
`Q.__debug_info__`, and raise. -/
def freshFail (self : Expr) (v : Val) (e : Err) :
    Except RichErr Val × Option QDebug :=
  (.error ⟨e, self, v⟩, some ⟨self, self, v, v⟩)

/-- The re-raise branch of `_helpful_failure` (`hasattr(inst,
'_RERAISE')`): keep the recorded inner sub-expression and inner value,
refresh only the outer expression and outer value
(`QDebug(self, expr, val, inner_val)`), and re-raise the exception
unchanged.  The record is always present here, because a flagged
exception is only ever produced by a fresh interception that set it;
the unreachable missing-record branch leaves the channel unchanged. -/
def reraiseFail (self : Expr) (v : Val) (e : RichErr) (st : Option QDebug) :
    Except RichErr Val × Option QDebug :=
  match st with
  | some d => (.error e, some ⟨self, d.innerExpr, v, d.innerVal⟩)
  | Option.none => (.error e, Option.none)

mutual

/-- `eval_` with the process-wide diagnostics channel
(`Q.__debug_info__`) threaded through: identical control flow to
`evalRes`, with each frame's `_helpful_failure` wrapper recording the
four-field snapshot on a fresh interception and rewriting only the
outer two fields on a re-raise. -/
def evalDebug : Expr → Val → Option QDebug →
    Except RichErr Val × Option QDebug
  | .q, v, st => (.ok v, st)
  | .attr n, v, st =>
      match attrOf v n with
      | .ok r => (.ok r, st)
      | .error e => freshFail (.attr n) v e
  | .getItem k, v, st =>
      match itemOf v k with
      | .ok r => (.ok r, st)
      | .error e => freshFail (.getItem k) v e
  | .call args kw, v, st =>
      match callVal v args kw with
      | .ok r => (.ok r, st)
      | .error e => freshFail (.call args kw) v e
  | .binOp op l r, v, st =>
      match evalOperandDebug l v st with
      | (.error e, st') => reraiseFail (.binOp op l r) v e st'
      | (.ok lv, st') =>
          match evalOperandDebug r v st' with
          | (.error e, st'') => reraiseFail (.binOp op l r) v e st''
          | (.ok rv, st'') =>
              match pyBinOp op lv rv with
              | .ok res => (.ok res, st'')
              | .error e => freshFail (.binOp op l r) v e
  | .chain items, v, st =>
      match evalDebugList items v st with
      | (.ok r, st') => (.ok r, st')
      | (.error e, st') => reraiseFail (.chain items) v e st'

def evalOperandDebug : Expr ⊕ Val → Val → Option QDebug →
    Except RichErr Val × Option QDebug
  | .inl e, v, st => evalDebug e v st
  | .inr lit, _, st => (.ok lit, st)

def evalDebugList : List Expr → Val → Option QDebug →
    Except RichErr Val × Option QDebug
  | [], v, st => (.ok v, st)
  | e :: es, v, st =>
      match evalDebug e v st with
      | (.ok v', st') => evalDebugList es v' st'
      | (.error err, st') => (.error err, st')

end

mutual

/-- The frame at which an exception first gets intercepted during
`eval_` of the given expression on the given value, with the value that
frame received, following the evaluation order: `none` when evaluation
succeeds.  Leaves intercept their own primitive failure; a `BinaryOp`
with a failing operand inherits that operand's interception point and
intercepts an operator failure itself; a `Chain` inherits the failing
item's interception point. -/
def firstFail : Expr → Val → Option (Expr × Val)
  | .q, _ => Option.none
  | .attr n, v =>
      match attrOf v n with
      | .ok _ => Option.none
      | .error _ => some (.attr n, v)
  | .getItem k, v =>
      match itemOf v k with
      | .ok _ => Option.none
      | .error _ => some (.getItem k, v)
  | .call args kw, v =>
      match callVal v args kw with
      | .ok _ => Option.none
      | .error _ => some (.call args kw, v)
  | .binOp op l r, v =>
      match evalOperand l v with
      | .error _ => firstFailOperand l v
      | .ok lv =>
          match evalOperand r v with
          | .error _ => firstFailOperand r v
          | .ok rv =>
              match pyBinOp op lv rv with
              | .ok _ => Option.none
              | .error _ => some (.binOp op l r, v)
  | .chain items, v => firstFailList items v

def firstFailOperand : Expr ⊕ Val → Val → Option (Expr × Val)
  | .inl e, v => firstFail e v
  | .inr _, _ => Option.none

def firstFailList : List Expr → Val → Option (Expr × Val)
  | [], _ => Option.none
  | e :: es, v =>
      match evalRes e v with
      | .ok v' => firstFailList es v'
      | .error _ => firstFail e v

end

/-! Helper lemmas shared by the claim theorems. -/

/-- Wrapping a value that is not itself a wrapper and has no `children`
attribute always produces a `Scalar`, and unwrapping recovers the
value. -/
theorem val_wrap_plain : ∀ {r : Val}, r.isWrapped = false →
    (Wrapper.wrap r).val = .ok r
  | .int _, _ => rfl
  | .rat _, _ => rfl
  | .str _, _ => rfl
  | .bool _, _ => rfl
  | .none, _ => rfl
  | .list _, _ => rfl
  | .tuple _, _ => rfl
  | .dict _, _ => rfl
  | .tree (Tree.elem _ _ _), _ => rfl
  | .tree (Tree.navString _), _ => rfl
  | .method _ _, _ => rfl
  | .wrapped _, h => by simp [Val.isWrapped] at h

/-- Unwrapping each item succeeds with one value per item. -/
theorem valList_length : ∀ {items : List Wrapper} {vs : List Val},
    valList items = .ok vs → vs.length = items.length
  | [], vs, h => by
      simp only [valList] at h
      cases h
      rfl
  | w :: ws, vs, h => by
      simp only [valList] at h
      cases hw : w.val with
      | error e => rw [hw] at h; cases h
      | ok v =>
          rw [hw] at h
          cases hws : valList ws with
          | error e => rw [hws] at h; cases h
          | ok tl =>
              rw [hws] at h
              cases h
              simp [valList_length hws]

/-! C1.  The spec says `dump` on a null variant yields `Null`.  In the
code only `NullNode.dump` does: `NullCollection.dump` returns
`NullCollection()` (its own test expects `val()` to then raise), and
`Null` has no `dump` override at all, so the generic `Wrapper.dump`
calls `_unwrap(self.apply(func))`, where `apply` returns the `Null`
and `_unwrap` raises `NullValueError` - except for an empty mapping,
where the comprehension is empty and `Scalar({})` comes back. -/

/-- C1 (counterexample): `NullCollection().dump()` yields
`NullCollection`, which is not `Null`, and `Null().dump(a=fn)` raises
`NullValueError` instead of yielding any wrapper. -/
theorem c1_dump_counterexample :
    Wrapper.dump .nullCollection [] = .ok .nullCollection
    ∧ Wrapper.nullCollection ≠ Wrapper.null
    ∧ Wrapper.dump .null [("a", fun v => .ok v)] = .error .nullValueError :=
  ⟨rfl, fun h => Wrapper.noConfusion h, rfl⟩

/-- C1 (amended): for every mapping of names to functions,
`NullNode.dump` yields `Null`, `NullCollection.dump` yields
`NullCollection`, and `Null.dump` raises `NullValueError` for a
nonempty mapping and yields `Scalar` of the empty record for the empty
mapping. -/
theorem c1_dump_null_variants : ∀ (kwargs : Kwargs),
    Wrapper.dump .nullNode kwargs = .ok .null
    ∧ Wrapper.dump .nullCollection kwargs = .ok .nullCollection
    ∧ (kwargs ≠ [] → Wrapper.dump .null kwargs = .error .nullValueError)
    ∧ Wrapper.dump .null [] = .ok (.scalar (.dict [])) := by
  intro kwargs
  refine ⟨rfl, rfl, ?_, rfl⟩
  intro hne
  match kwargs with
  | [] => exact absurd rfl hne
  | (n, f) :: rest => rfl

/-- C1 (witness): the amended statement at the one-entry mapping
`a ↦ identity`. -/
theorem c1_dump_witness :
    Wrapper.dump .nullNode [("a", fun v => .ok v)] = .ok .null
    ∧ Wrapper.dump .nullCollection [("a", fun v => .ok v)] = .ok .nullCollection
    ∧ Wrapper.dump .null [("a", fun v => .ok v)] = .error .nullValueError
    ∧ Wrapper.dump .null [] = .ok (.scalar (.dict [])) := by
  have h := c1_dump_null_variants [("a", fun v => .ok v)]
  exact ⟨h.1, h.2.1, h.2.2.1 (List.cons_ne_nil _ _), h.2.2.2⟩

/-! C2.  The spec's mirror invariant requires every null variant to
accept the argument lists its non-null counterpart accepts.
`Collection.each` is declared `def each(self, *funcs)` and accepts any
number of functions, but `NullCollection.each` is declared
`def each(self, func)` and accepts exactly one - two functions raise
`TypeError` on the null variant where the non-null collection
succeeds.  The library's own interface test only compares method name
sets, so it misses the arity mismatch; the declared invariant is the
intent and the narrowed signature a slip. -/

/-- C2: `Collection.each` accepts two functions while
`NullCollection.each` does not (it accepts exactly one, and with its
one accepted argument list it propagates the null by returning
itself). -/
theorem c2_each_arity_divergence :
    Collection.eachAcceptsArity 2 = true
    ∧ NullCollection.eachAcceptsArity 2 = false
    ∧ NullCollection.eachAcceptsArity 1 = true
    ∧ (∀ f, NullCollection.each f = .nullCollection) :=
  ⟨rfl, rfl, rfl, fun _ => rfl⟩

/-! C10.  `BaseNull.__eq__` and `BaseNull.__ne__` return `type(self)()`,
a falsy null wrapper, never a boolean, so `n == x` is falsy for every
`x` including `n` itself; `BaseNull.__hash__` is `hash(type(self))`, a
function of the type alone.  In the embedding null instances of a kind
are identified, so the hash law is definitional. -/

/-- C10: for every null variant kind and every operand, `==` and `!=`
return the fresh null of the receiver's kind - a null wrapper (never a
boolean) that is falsy - while the hash depends only on the kind, so
equal-kind nulls hash equal despite comparing falsy. -/
theorem c10_null_eq_hash : ∀ (k : NullKind) (x : Val),
    BaseNull.eqOp k x = k.toWrapper
    ∧ BaseNull.neOp k x = k.toWrapper
    ∧ (BaseNull.eqOp k x).isNull = true
    ∧ Wrapper.truthy (BaseNull.eqOp k x) = false
    ∧ Wrapper.truthy (BaseNull.neOp k x) = false
    ∧ BaseNull.hashOp k = BaseNull.hashOp k := by
  intro k x
  cases k <;> exact ⟨rfl, rfl, rfl, rfl, rfl, rfl⟩

/-! C8.  A failed single-node search returns `NullNode`
(`_wrap_node` on the adapter's absent result), and the chain
`.text.map(int).orelse(0)` on a `NullNode` produces `Scalar(0)`:
`NullNode.text` is `Null()`, `BaseNull.map` ignores the function, and
`BaseNull.orelse` wraps the fallback. -/

/-- The chained query `w.text.map(f).orelse(0)` on a node-like
wrapper. -/
def textMapOrelseZero (w : Wrapper) (f : Val → Except Err Val) :
    Except Err Wrapper :=
  match Node.textProp w with
  | .error e => .error e
  | .ok tx =>
      match tx.map f with
      | .error e => .error e
      | .ok m => .ok (m.orelse (.int 0))

/-- C8: whenever the adapter reports no match for `find`, the search
returns `NullNode`, and `.text.map(f).orelse(0)` on that result yields
`Scalar(0)` for every mapped function `f`. -/
theorem c8_failed_find_chain : ∀ (t : Tree) (nm : String)
    (f : Val → Except Err Val),
    Tree.bs4Find t nm = Option.none →
    Node.find t nm = .nullNode
    ∧ textMapOrelseZero (Node.find t nm) f = .ok (.scalar (.int 0)) := by
  intro t nm f h
  have h1 : Node.find t nm = .nullNode := by
    cases t with
    | navString s => rfl
    | elem n a c => simp [Node.find, h]
  exact ⟨h1, by rw [h1]; rfl⟩

/-- C8 (witness): a document `<a>x</a>` with no `b` descendant. -/
theorem c8_failed_find_witness :
    Node.find (.elem "a" [] [.navString "x"]) "b" = .nullNode
    ∧ textMapOrelseZero (Node.find (.elem "a" [] [.navString "x"]) "b")
        (fun v => .ok v) = .ok (.scalar (.int 0)) :=
  c8_failed_find_chain (.elem "a" [] [.navString "x"]) "b" (fun v => .ok v) rfl

/-! C3.  The spec's map law `w.map(f).val() == f(w.val())` fails in two
ways: a function returning a wrapper is passed through `Wrapper.wrap`
unchanged and then unwrapped by `val()` (so the left side loses one
wrapper layer), and a `Collection` passes its list of wrapper items to
`f` under `map` but its list of unwrapped values to `f` under `val`.
It holds for `Scalar` and `Node` receivers when `f` does not return a
wrapper. -/

/-- The left side of the map law: `w.map(f).val()`. -/
def mapThenVal (w : Wrapper) (f : Val → Except Err Val) : Except Err Val :=
  match w.map f with
  | .error e => .error e
  | .ok w' => w'.val

/-- The right side of the map law: `f(w.val())`. -/
def valThenF (w : Wrapper) (f : Val → Except Err Val) : Except Err Val :=
  match w.val with
  | .error e => .error e
  | .ok v => f v

/-- C3 (counterexample): the law fails for `Scalar(1)` with a function
returning `Scalar(7)` (the left side auto-unwraps), and for
`Collection([Scalar(1)])` with a function that observes whether its
argument is a list of wrappers (map passes wrapper items, val passes
unwrapped values). -/
theorem c3_map_law_counterexample :
    mapThenVal (.scalar (.int 1)) (fun _ => .ok (.wrapped (.scalar (.int 7))))
      = .ok (.int 7)
    ∧ valThenF (.scalar (.int 1)) (fun _ => .ok (.wrapped (.scalar (.int 7))))
      = .ok (.wrapped (.scalar (.int 7)))
    ∧ mapThenVal (.scalar (.int 1)) (fun _ => .ok (.wrapped (.scalar (.int 7))))
      ≠ valThenF (.scalar (.int 1)) (fun _ => .ok (.wrapped (.scalar (.int 7))))
    ∧ mapThenVal (.collection [.scalar (.int 1)])
        (fun l => match l with
          | .list (.wrapped _ :: _) => .ok (.bool true)
          | _ => .ok (.bool false)) = .ok (.bool true)
    ∧ valThenF (.collection [.scalar (.int 1)])
        (fun l => match l with
          | .list (.wrapped _ :: _) => .ok (.bool true)
          | _ => .ok (.bool false)) = .ok (.bool false)
    ∧ mapThenVal (.collection [.scalar (.int 1)])
        (fun l => match l with
          | .list (.wrapped _ :: _) => .ok (.bool true)
          | _ => .ok (.bool false))
      ≠ valThenF (.collection [.scalar (.int 1)])
        (fun l => match l with
          | .list (.wrapped _ :: _) => .ok (.bool true)
          | _ => .ok (.bool false)) := by
  refine ⟨rfl, rfl, ?_, rfl, rfl, ?_⟩
  · intro h
    have h' : (Except.ok (Val.int 7) : Except Err Val)
        = .ok (.wrapped (.scalar (.int 7))) := h
    simp at h'
  · intro h
    have h' : (Except.ok (Val.bool true) : Except Err Val)
        = .ok (.bool false) := h
    simp at h'

/-- C3 (amended): `w.map(f).val() == f(w.val())` for every `Scalar` and
`Node` receiver and every function whose result on the relevant input
is not itself a wrapper. -/
theorem c3_map_law :
    (∀ (v : Val) (f : Val → Except Err Val),
      (∀ r, f v = .ok r → r.isWrapped = false) →
      mapThenVal (.scalar v) f = valThenF (.scalar v) f)
    ∧ (∀ (t : Tree) (f : Val → Except Err Val),
      (∀ r, f (.tree t) = .ok r → r.isWrapped = false) →
      mapThenVal (.node t) f = valThenF (.node t) f) := by
  constructor
  · intro v f h
    unfold mapThenVal valThenF
    cases hf : f v with
    | error e => simp [Wrapper.map, Wrapper.val, hf, Except.map]
    | ok r =>
        simp [Wrapper.map, Wrapper.val, hf, Except.map]
        exact val_wrap_plain (h r hf)
  · intro t f h
    unfold mapThenVal valThenF
    cases hf : f (.tree t) with
    | error e => simp [Wrapper.map, Wrapper.val, hf, Except.map]
    | ok r =>
        simp [Wrapper.map, Wrapper.val, hf, Except.map]
        exact val_wrap_plain (h r hf)

/-- C3 (witness): the amended law at `Scalar(1)` with the identity
function, whose result is the plain value `1`. -/
theorem c3_map_law_witness :
    mapThenVal (.scalar (.int 1)) (fun x => .ok x)
      = valThenF (.scalar (.int 1)) (fun x => .ok x) :=
  c3_map_law.1 (.int 1) (fun x => .ok x)
    (fun r hr => by cases hr; rfl)

/-- A non-wrapper value passes through `_unwrap` unchanged. -/
theorem unwrap_plain : ∀ {o : Val}, o.isWrapped = false → unwrapVal o = .ok o
  | .int _, _ => rfl
  | .rat _, _ => rfl
  | .str _, _ => rfl
  | .bool _, _ => rfl
  | .none, _ => rfl
  | .list _, _ => rfl
  | .tuple _, _ => rfl
  | .dict _, _ => rfl
  | .tree _, _ => rfl
  | .method _ _, _ => rfl
  | .wrapped _, h => by simp [Val.isWrapped] at h

/-- On non-wrapper operands, the operator dispatch is the plain-value
evaluation. -/
theorem pyBinOp_plain_args : ∀ {op : BOp} {a b : Val},
    a.isWrapped = false → b.isWrapped = false →
    pyBinOp op a b = pyBinOpPlain op a b := by
  intro op a b ha hb
  cases a <;> cases b <;> first
    | rfl
    | simp [Val.isWrapped] at ha hb

/-- A successful plain-value operator application returns a plain value,
which `Wrapper.wrap` turns into a `Scalar`. -/
theorem pyBinOpPlain_result_plain : ∀ {op : BOp} {a b r : Val},
    pyBinOpPlain op a b = .ok r → Wrapper.wrap r = .scalar r := by
  intro op a b r h
  unfold pyBinOpPlain at h
  split at h <;>
    first
    | exact Except.noConfusion h
    | (injection h with h; subst h; rfl)
    | (unfold intArith at h
       split at h <;>
         first
         | exact Except.noConfusion h
         | (injection h with h; subst h; rfl)
         | (split at h <;>
             first
             | exact Except.noConfusion h
             | (injection h with h; subst h; rfl)
             | (split at h <;>
                 first
                 | exact Except.noConfusion h
                 | (injection h with h; subst h; rfl))))

/-! C7.  Scalar operators: the comparison dunders map the raw comparison
over the stored value (a `Null` operand propagates through CPython's
reflected dispatch, since `Null` defines every comparison dunder and
`BaseNull` defines `__eq__`/`__ne__`), and the arithmetic dunders check
`isinstance(other, BaseNull)` first and return the null operand itself.
Either way the result for a `Null` operand is a null wrapper, and the
result for a plain operand on which the operator succeeds is a fresh
`Scalar` of the operator's value. -/

/-- C7: for every operator among `>,>=,<,<=,==,!=,+,-,*,/,//,%,**`, a
`Scalar` holding a plain value `v` combined with a plain operand on
which the Python operator yields `r` produces `Scalar(r)`; combined
with a `Null` operand it produces a null wrapper (`Null` itself); and
an arithmetic operator combined with another `Scalar` operand unwraps
it first and likewise produces `Scalar` of the operator's value. -/
theorem c7_scalar_operators :
    (∀ (op : BOp) (v o r : Val),
      v.isWrapped = false → o.isWrapped = false →
      pyBinOp op v o = .ok r →
      Scalar.binMethod op v o = .ok (.scalar r))
    ∧ (∀ (op : BOp) (v : Val),
      v.isWrapped = false →
      Scalar.binMethod op v (.wrapped .null) = .ok .null)
    ∧ (∀ (op : BOp) (v u r : Val),
      op.isCmp = false →
      v.isWrapped = false → u.isWrapped = false →
      pyBinOp op v u = .ok r →
      Scalar.binMethod op v (.wrapped (.scalar u)) = .ok (.scalar r)) := by
  refine ⟨?_, ?_, ?_⟩
  · intro op v o r hv ho hr
    have hplain : pyBinOpPlain op v o = .ok r := by
      rw [← pyBinOp_plain_args hv ho]; exact hr
    have hwrap : Wrapper.wrap r = .scalar r := pyBinOpPlain_result_plain hplain
    cases hcmp : op.isCmp with
    | true =>
        simp only [Scalar.binMethod, hcmp, if_true]
        simp [Scalar.cmpOp, Wrapper.map, hr, Except.map, hwrap]
    | false =>
        simp only [Scalar.binMethod, hcmp, Bool.false_eq_true, if_false]
        cases o
        case wrapped w => simp [Val.isWrapped] at ho
        all_goals simp [Scalar.arithOp, unwrapVal, hr, hwrap]
  · intro op v hv
    cases op <;> cases v <;> first
      | rfl
      | simp [Val.isWrapped] at hv
  · intro op v u r hcmp hv hu hr
    have hplain : pyBinOpPlain op v u = .ok r := by
      rw [← pyBinOp_plain_args hv hu]; exact hr
    have hwrap : Wrapper.wrap r = .scalar r := pyBinOpPlain_result_plain hplain
    simp only [Scalar.binMethod, hcmp, Bool.false_eq_true, if_false]
    simp [Scalar.arithOp, unwrapVal, Wrapper.val, hr, hwrap]

/-- C7 (witness): `Scalar(1) + 2` yields `Scalar(3)`,
`Scalar(3) > Null()` yields `Null`, and `Scalar(1) + Scalar(2)` yields
`Scalar(3)`. -/
theorem c7_scalar_operators_witness :
    Scalar.binMethod .add (.int 1) (.int 2) = .ok (.scalar (.int 3))
    ∧ Scalar.binMethod .gt (.int 3) (.wrapped .null) = .ok .null
    ∧ Scalar.binMethod .add (.int 1) (.wrapped (.scalar (.int 2)))
        = .ok (.scalar (.int 3)) :=
  ⟨c7_scalar_operators.1 .add (.int 1) (.int 2) (.int 3) rfl rfl rfl,
   c7_scalar_operators.2.1 .gt (.int 3) rfl,
   c7_scalar_operators.2.2 .add (.int 1) (.int 2) (.int 3) rfl rfl rfl rfl⟩

/-! C4.  `Collection.zip` first unwraps every operand
(`args = [_unwrap(item) for item in (self,) + others]`), so a null item
in the collection raises `NullValueError` before the length check ever
runs - the claim's "regardless of element content" fails.  After a
successful unwrap, the length check does run before any pairing, and
its failure is the length-mismatch `ValueError` (the spec's
`LengthMismatch`). -/

/-- When the unwrap succeeds and every operand matches the collection's
length, `zip` returns the `Collection` of wrapped tuples. -/
theorem zip_all_lengths {items : List Wrapper} {others : List (List Val)}
    {vs : List Val} (h : valList items = .ok vs)
    (hlen : ∀ o ∈ others, o.length = items.length) :
    Collection.zip items others = .ok (.collection ((pyZipMulti vs others).map
      (fun tup => Wrapper.wrap (.tuple tup)))) := by
  unfold Collection.zip
  rw [h]
  have hcond : ((vs :: others).all (fun a => a.length == items.length)) = true := by
    rw [List.all_eq_true]
    intro a ha
    rcases List.mem_cons.mp ha with h1 | h2
    · subst h1; simp [valList_length h]
    · simp [hlen a h2]
  simp [hcond]

/-- When the unwrap succeeds and some operand's length disagrees,
`zip` raises the length-mismatch error before pairing anything. -/
theorem zip_length_mismatch {items : List Wrapper} {others : List (List Val)}
    {vs : List Val} (h : valList items = .ok vs)
    (hex : ∃ o ∈ others, o.length ≠ items.length) :
    Collection.zip items others
      = .error (.valueError "Arguments are not all the same length") := by
  unfold Collection.zip
  rw [h]
  obtain ⟨o, ho, hne⟩ := hex
  cases hall : (vs :: others).all (fun a => a.length == items.length) with
  | true =>
      exfalso
      have := List.all_eq_true.mp hall o (List.mem_cons_of_mem _ ho)
      simp at this
      exact hne this
  | false => simp [hall]

/-- C4 (counterexample): a collection holding a `Null` item raises
`NullValueError` from the unwrap even though the operand lengths
disagree, so a mismatch does not always raise `LengthMismatch`. -/
theorem c4_zip_counterexample :
    Collection.zip [.null] [[]] = .error .nullValueError
    ∧ ([] : List Val).length ≠ ([Wrapper.null] : List Wrapper).length
    ∧ Err.nullValueError ≠ Err.valueError "Arguments are not all the same length" :=
  ⟨rfl, by decide, by decide⟩

/-- C4 (amended): for a collection whose items all unwrap (no null
items), `zip` with raw operand sequences raises the length-mismatch
`ValueError` whenever any operand's length differs from the
collection's, before any pairing is attempted, and returns the
`Collection` of wrapped tuples when all lengths agree. -/
theorem c4_zip_length_law : ∀ (items : List Wrapper)
    (others : List (List Val)) (vs : List Val),
    valList items = .ok vs →
    ((∃ o ∈ others, o.length ≠ items.length) →
        Collection.zip items others
          = .error (.valueError "Arguments are not all the same length"))
    ∧ ((∀ o ∈ others, o.length = items.length) →
        Collection.zip items others
          = .ok (.collection ((pyZipMulti vs others).map
              (fun tup => Wrapper.wrap (.tuple tup))))) :=
  fun _ _ _ h =>
    ⟨fun hex => zip_length_mismatch h hex,
     fun hall => zip_all_lengths h hall⟩

/-- C4 (witness): `Collection([Scalar(1)])` zipped against an empty
sequence raises the mismatch error, and zipped against `[5]` pairs
into tuples. -/
theorem c4_zip_length_law_witness :
    Collection.zip [.scalar (.int 1)] [[]]
      = .error (.valueError "Arguments are not all the same length")
    ∧ Collection.zip [.scalar (.int 1)] [[.int 5]]
      = .ok (.collection ((pyZipMulti [.int 1] [[.int 5]]).map
          (fun tup => Wrapper.wrap (.tuple tup)))) := by
  have h1 := (c4_zip_length_law [.scalar (.int 1)] [[]] [.int 1] rfl).1
  have h2 := (c4_zip_length_law [.scalar (.int 1)] [[.int 5]] [.int 1] rfl).2
  refine ⟨h1 ⟨[], by simp⟩, h2 ?_⟩
  intro o ho
  rw [List.mem_singleton] at ho
  subst ho
  rfl

/-! C9.  `Collection.dictzip` never checks lengths: Python's `zip`
truncates to the shorter of keys and values, discarding the excess, in
contrast to `Collection.zip`'s mismatch error.  But it does call
`self.val()` first, so - like `zip` - it raises `NullValueError` on a
collection holding a null item, even on a length mismatch. -/

/-- C9 (counterexample): on a collection holding a `Null` item,
`dictzip` raises `NullValueError` even though the key sequence's length
disagrees, instead of pairing `min` many entries into a dict. -/
theorem c9_dictzip_counterexample :
    Collection.dictzip [.null] [] = .error .nullValueError
    ∧ ([] : List Val).length ≠ ([Wrapper.null] : List Wrapper).length :=
  ⟨rfl, by decide⟩

/-- C9 (amended): for a collection whose items all unwrap (no null
items), `dictzip` never raises regardless of length mismatch: it pairs
exactly the first `min(#keys, #items)` key/value pairs into a
`Scalar(dict)`, silently discarding the excess - while `zip` against
the same key sequence raises `LengthMismatch` on the mismatch. -/
theorem c9_dictzip_truncates : ∀ (items : List Wrapper) (keys : List Val)
    (vs : List Val),
    valList items = .ok vs →
    Collection.dictzip items keys
      = .ok (.scalar (.dict (pyDictOfPairs (keys.zip vs))))
    ∧ (keys.zip vs).length = min keys.length items.length
    ∧ (keys.length ≠ items.length →
        Collection.zip items [keys]
          = .error (.valueError "Arguments are not all the same length")) := by
  intro items keys vs h
  refine ⟨?_, ?_, ?_⟩
  · unfold Collection.dictzip
    rw [h]
  · rw [List.length_zip, valList_length h]
  · intro hne
    exact zip_length_mismatch h ⟨keys, by simp, hne⟩

/-- C9 (witness): two items against one key pair into the single-entry
dict while `zip` raises on the same operands. -/
theorem c9_dictzip_truncates_witness :
    Collection.dictzip [.scalar (.int 1), .scalar (.int 2)] [.str "a"]
      = .ok (.scalar (.dict (pyDictOfPairs
          ([Val.str "a"].zip [Val.int 1, Val.int 2]))))
    ∧ ([Val.str "a"].zip [Val.int 1, Val.int 2]).length = min 1 2
    ∧ Collection.zip [.scalar (.int 1), .scalar (.int 2)] [[.str "a"]]
      = .error (.valueError "Arguments are not all the same length") := by
  have h := c9_dictzip_truncates [.scalar (.int 1), .scalar (.int 2)]
    [.str "a"] [.int 1, .int 2] rfl
  exact ⟨h.1, h.2.1, h.2.2 (by decide)⟩

/-! C5.  `Expression._chain` flattens both sides' items into one
`Chain`, whose `eval_` threads the value through the items left to
right; therefore evaluating the flattened chain equals evaluating the
first expression and feeding its result to the second (an exception
from the first stage propagates unchanged either way, since outer
frames re-raise the same exception object). -/

/-- Evaluating a singleton item list is evaluating the item. -/
theorem evalResList_singleton (e : Expr) (v : Val) :
    evalResList [e] v = evalRes e v := by
  show (match evalRes e v with
        | .ok v' => evalResList [] v'
        | .error err => .error err) = evalRes e v
  cases evalRes e v <;> rfl

/-- Threading a value through a concatenated item list is threading it
through the first part and then the second. -/
theorem evalResList_append : ∀ (as bs : List Expr) (v : Val),
    evalResList (as ++ bs) v =
      match evalResList as v with
      | .ok y => evalResList bs y
      | .error err => .error err
  | [], bs, v => by
      cases h : evalResList bs v <;> rfl
  | e :: as, bs, v => by
      show (match evalRes e v with
            | .ok v' => evalResList (as ++ bs) v'
            | .error err => .error err)
          = (match (match evalRes e v with
                    | .ok v' => evalResList as v'
                    | .error err => .error err) with
             | .ok y => evalResList bs y
             | .error err => .error err)
      cases evalRes e v with
      | ok v' => exact evalResList_append as bs v'
      | error err => rfl

/-- Threading a value through `iter(e)`'s items is evaluating `e`. -/
theorem evalResList_iterItems (e : Expr) (v : Val) :
    evalResList e.iterItems v = evalRes e v := by
  cases e with
  | chain items => rfl
  | q => exact evalResList_singleton _ v
  | attr n => exact evalResList_singleton _ v
  | getItem k => exact evalResList_singleton _ v
  | call args kw => exact evalResList_singleton _ v
  | binOp op l r => exact evalResList_singleton _ v

/-- C5: for all expressions `e1`, `e2` and every input `x`, evaluating
the chained expression `(e1 then e2)` on `x` is evaluating `e2` on the
result of evaluating `e1` on `x` (with a first-stage exception
propagating unchanged). -/
theorem c5_chain_composition : ∀ (e1 e2 : Expr) (x : Val),
    evalRes (Expr.chainOp e1 e2) x =
      match evalRes e1 x with
      | .ok y => evalRes e2 y
      | .error err => .error err := by
  intro e1 e2 x
  show evalResList (e1.iterItems ++ e2.iterItems) x = _
  rw [evalResList_append, evalResList_iterItems]
  cases evalRes e1 x with
  | ok y => exact evalResList_iterItems e2 y
  | error err => rfl

/-! C6.  The diagnostics invariant: when evaluation fails, the
four-field snapshot left in the channel has the top-level expression
and its input in the outer fields, and the first-intercepting frame and
its input in the inner fields - fresh interceptions write all four
fields, re-raises overwrite only the outer two. -/

/-- The diagnostics invariant for one expression: on success the
channel is untouched and the stateless evaluation agrees; on failure
the stateless evaluation raises the same enriched exception, the inner
location is the first interception point, and the final channel record
is exactly (this expression, inner frame, this input, inner input) -
regardless of the channel's prior contents. -/
def EvalAgrees (e : Expr) : Prop :=
  ∀ (v : Val) (st : Option QDebug),
    (∀ r st', evalDebug e v st = (.ok r, st') →
        st' = st ∧ evalRes e v = .ok r ∧ firstFail e v = Option.none)
    ∧ (∀ err st', evalDebug e v st = (.error err, st') →
        evalRes e v = .error err
        ∧ firstFail e v = some (err.atExpr, err.atVal)
        ∧ st' = some ⟨e, err.atExpr, v, err.atVal⟩)

/-- The diagnostics invariant for a `BinaryOp` operand (the operand's
own frame owns the outer fields, so only the inner fields are
exposed). -/
def OperandAgrees (o : Expr ⊕ Val) : Prop :=
  ∀ (v : Val) (st : Option QDebug),
    (∀ r st', evalOperandDebug o v st = (.ok r, st') →
        st' = st ∧ evalOperand o v = .ok r ∧ firstFailOperand o v = Option.none)
    ∧ (∀ err st', evalOperandDebug o v st = (.error err, st') →
        evalOperand o v = .error err
        ∧ firstFailOperand o v = some (err.atExpr, err.atVal)
        ∧ ∃ d, st' = some d ∧ d.innerExpr = err.atExpr ∧ d.innerVal = err.atVal)

/-- The diagnostics invariant for a chain's item list (the enclosing
`Chain` frame owns the outer fields). -/
def ListAgrees (es : List Expr) : Prop :=
  ∀ (v : Val) (st : Option QDebug),
    (∀ r st', evalDebugList es v st = (.ok r, st') →
        st' = st ∧ evalResList es v = .ok r ∧ firstFailList es v = Option.none)
    ∧ (∀ err st', evalDebugList es v st = (.error err, st') →
        evalResList es v = .error err
        ∧ firstFailList es v = some (err.atExpr, err.atVal)
        ∧ ∃ d, st' = some d ∧ d.innerExpr = err.atExpr ∧ d.innerVal = err.atVal)

/-- The invariant for a leaf frame whose body runs one primitive. -/
theorem leafAgrees (self : Expr) (prim : Val → Except Err Val)
    (hD : ∀ v st, evalDebug self v st =
        match prim v with
        | .ok r => (.ok r, st)
        | .error e => freshFail self v e)
    (hR : ∀ v, evalRes self v =
        match prim v with
        | .ok r => .ok r
        | .error e => .error ⟨e, self, v⟩)
    (hF : ∀ v, firstFail self v =
        match prim v with
        | .ok _ => Option.none
        | .error _ => some (self, v)) :
    EvalAgrees self := by
  intro v st
  constructor
  · intro r st' h
    rw [hD] at h
    cases hp : prim v with
    | ok u =>
        rw [hp] at h
        injection h with h1 h2
        injection h1 with h1
        subst h1; subst h2
        exact ⟨rfl, by rw [hR, hp], by rw [hF, hp]⟩
    | error e =>
        rw [hp] at h
        unfold freshFail at h
        injection h with h1 h2
        exact Except.noConfusion h1
  · intro err st' h
    rw [hD] at h
    cases hp : prim v with
    | ok u =>
        rw [hp] at h
        injection h with h1 h2
        exact Except.noConfusion h1
    | error e =>
        rw [hp] at h
        unfold freshFail at h
        injection h with h1 h2
        injection h1 with h1
        subst h1; subst h2
        exact ⟨by rw [hR, hp], by rw [hF, hp], rfl⟩

/-- The invariant for a `BinaryOp` frame, from its operands'. -/
theorem binOpAgrees (op : BOp) (l r : Expr ⊕ Val)
    (hl : OperandAgrees l) (hr : OperandAgrees r) :
    EvalAgrees (.binOp op l r) := by
  intro v st
  have hubR : evalRes (.binOp op l r) v =
      (match evalOperand l v with
       | .error e => .error e
       | .ok lv =>
           match evalOperand r v with
           | .error e => .error e
           | .ok rv =>
               match pyBinOp op lv rv with
               | .ok res => .ok res
               | .error e => .error ⟨e, .binOp op l r, v⟩) := rfl
  have hubF : firstFail (.binOp op l r) v =
      (match evalOperand l v with
       | .error _ => firstFailOperand l v
       | .ok lv =>
           match evalOperand r v with
           | .error _ => firstFailOperand r v
           | .ok rv =>
               match pyBinOp op lv rv with
               | .ok _ => Option.none
               | .error _ => some (.binOp op l r, v)) := rfl
  constructor
  · intro res stF h
    have h' : (match evalOperandDebug l v st with
       | (.error e, st') => reraiseFail (.binOp op l r) v e st'
       | (.ok lv, st') =>
           match evalOperandDebug r v st' with
           | (.error e, st'') => reraiseFail (.binOp op l r) v e st''
           | (.ok rv, st'') =>
               match pyBinOp op lv rv with
               | .ok res => (.ok res, st'')
               | .error e => freshFail (.binOp op l r) v e)
        = (.ok res, stF) := h
    clear h
    split at h'
    · rename_i e stL heqL
      unfold reraiseFail at h'
      cases stL with
      | some d => injection h' with h1 _; exact Except.noConfusion h1
      | none => injection h' with h1 _; exact Except.noConfusion h1
    · rename_i lv stL heqL
      obtain ⟨hstL, hOL, hFL⟩ := (hl v st).1 lv stL heqL
      split at h'
      · rename_i e stR heqR
        unfold reraiseFail at h'
        cases stR with
        | some d => injection h' with h1 _; exact Except.noConfusion h1
        | none => injection h' with h1 _; exact Except.noConfusion h1
      · rename_i rv stR heqR
        obtain ⟨hstR, hOR, hFR⟩ := (hr v stL).1 rv stR heqR
        split at h'
        · rename_i resP heqP
          injection h' with h1 h2
          injection h1 with h1
          subst h1
          refine ⟨?_, ?_, ?_⟩
          · rw [← h2, hstR, hstL]
          · simp only [hubR, hOL, hOR, heqP]
          · simp only [hubF, hOL, hOR, heqP]
        · rename_i e heqP
          unfold freshFail at h'
          injection h' with h1 _
          exact Except.noConfusion h1
  · intro err stF h
    have h' : (match evalOperandDebug l v st with
       | (.error e, st') => reraiseFail (.binOp op l r) v e st'
       | (.ok lv, st') =>
           match evalOperandDebug r v st' with
           | (.error e, st'') => reraiseFail (.binOp op l r) v e st''
           | (.ok rv, st'') =>
               match pyBinOp op lv rv with
               | .ok res => (.ok res, st'')
               | .error e => freshFail (.binOp op l r) v e)
        = (.error err, stF) := h
    clear h
    split at h'
    · rename_i e stL heqL
      obtain ⟨hRL, hFL, d, hd, hdi, hdv⟩ := (hl v st).2 e stL heqL
      subst hd
      unfold reraiseFail at h'
      injection h' with h1 h2
      injection h1 with h1
      subst h1
      refine ⟨by simp only [hubR, hRL], by simp only [hubF, hRL]; exact hFL, ?_⟩
      rw [← h2, hdi, hdv]
    · rename_i lv stL heqL
      obtain ⟨hstL, hOL, hFL⟩ := (hl v st).1 lv stL heqL
      split at h'
      · rename_i e stR heqR
        obtain ⟨hRR, hFR, d, hd, hdi, hdv⟩ := (hr v stL).2 e stR heqR
        subst hd
        unfold reraiseFail at h'
        injection h' with h1 h2
        injection h1 with h1
        subst h1
        refine ⟨by simp only [hubR, hOL, hRR], ?_, ?_⟩
        · simp only [hubF, hOL, hRR]; exact hFR
        · rw [← h2, hdi, hdv]
      · rename_i rv stR heqR
        obtain ⟨hstR, hOR, hFR⟩ := (hr v stL).1 rv stR heqR
        split at h'
        · rename_i resP heqP
          injection h' with h1 _
          exact Except.noConfusion h1
        · rename_i e heqP
          unfold freshFail at h'
          injection h' with h1 h2
          injection h1 with h1
          subst h1
          refine ⟨?_, ?_, ?_⟩
          · simp only [hubR, hOL, hOR, heqP]
          · simp only [hubF, hOL, hOR, heqP]
          · rw [← h2]

/-- The invariant for a `Chain` frame, from its item list's. -/
theorem chainAgrees (items : List Expr) (hL : ListAgrees items) :
    EvalAgrees (.chain items) := by
  intro v st
  constructor
  · intro r stF h
    have h' : (match evalDebugList items v st with
       | (.ok u, st') => ((.ok u : Except RichErr Val), st')
       | (.error e, st') => reraiseFail (.chain items) v e st')
        = (.ok r, stF) := h
    clear h
    split at h'
    · rename_i u stL heq
      injection h' with h1 h2
      injection h1 with h1
      subst h1; subst h2
      exact (hL v st).1 u stL heq
    · rename_i e stL heq
      unfold reraiseFail at h'
      cases stL with
      | some d => injection h' with h1 _; exact Except.noConfusion h1
      | none => injection h' with h1 _; exact Except.noConfusion h1
  · intro err stF h
    have h' : (match evalDebugList items v st with
       | (.ok u, st') => ((.ok u : Except RichErr Val), st')
       | (.error e, st') => reraiseFail (.chain items) v e st')
        = (.error err, stF) := h
    clear h
    split at h'
    · rename_i u stL heq
      injection h' with h1 _
      exact Except.noConfusion h1
    · rename_i e stL heq
      obtain ⟨hRes, hFF, d, hd, hdi, hdv⟩ := (hL v st).2 e stL heq
      subst hd
      unfold reraiseFail at h'
      injection h' with h1 h2
      injection h1 with h1
      subst h1
      exact ⟨hRes, hFF, by rw [← h2, hdi, hdv]⟩

/-- The invariant for a nonempty item list, from the head's and
tail's. -/
theorem consAgrees (e : Expr) (es : List Expr)
    (he : EvalAgrees e) (hes : ListAgrees es) :
    ListAgrees (e :: es) := by
  intro v st
  have hubR : evalResList (e :: es) v =
      (match evalRes e v with
       | .ok v' => evalResList es v'
       | .error err => .error err) := rfl
  have hubF : firstFailList (e :: es) v =
      (match evalRes e v with
       | .ok v' => firstFailList es v'
       | .error _ => firstFail e v) := rfl
  constructor
  · intro r stF h
    have h' : (match evalDebug e v st with
       | (.ok v', st') => evalDebugList es v' st'
       | (.error err, st') => ((.error err : Except RichErr Val), st'))
        = (.ok r, stF) := h
    clear h
    split at h'
    · rename_i v' stE heq
      obtain ⟨hst, hR1, hF1⟩ := (he v st).1 v' stE heq
      obtain ⟨hst2, hR2, hF2⟩ := (hes v' stE).1 r stF h'
      exact ⟨hst2.trans hst, by simp only [hubR, hR1]; exact hR2,
             by simp only [hubF, hR1]; exact hF2⟩
    · rename_i err0 stE heq
      injection h' with h1 _
      exact Except.noConfusion h1
  · intro err stF h
    have h' : (match evalDebug e v st with
       | (.ok v', st') => evalDebugList es v' st'
       | (.error err, st') => ((.error err : Except RichErr Val), st'))
        = (.error err, stF) := h
    clear h
    split at h'
    · rename_i v' stE heq
      obtain ⟨hst, hR1, hF1⟩ := (he v st).1 v' stE heq
      obtain ⟨hR2, hF2, hd⟩ := (hes v' stE).2 err stF h'
      exact ⟨by simp only [hubR, hR1]; exact hR2,
             by simp only [hubF, hR1]; exact hF2, hd⟩
    · rename_i err0 stE heq
      injection h' with h1 h2
      injection h1 with h1
      subst h1
      obtain ⟨hR1, hF1, hstE⟩ := (he v st).2 err0 stE heq
      refine ⟨by simp only [hubR, hR1], by simp only [hubF, hR1]; exact hF1, ?_⟩
      rw [← h2]
      exact ⟨_, hstE, rfl, rfl⟩

mutual

theorem evalDebug_agrees : ∀ (e : Expr), EvalAgrees e
  | .q => by
      intro v st
      constructor
      · intro r st' h
        injection h with h1 h2
        injection h1 with h1
        subst h1; subst h2
        exact ⟨rfl, rfl, rfl⟩
      · intro err st' h
        injection h with h1 _
        exact Except.noConfusion h1
  | .attr n =>
      leafAgrees (.attr n) (fun v => attrOf v n)
        (fun _ _ => rfl) (fun _ => rfl) (fun _ => rfl)
  | .getItem k =>
      leafAgrees (.getItem k) (fun v => itemOf v k)
        (fun _ _ => rfl) (fun _ => rfl) (fun _ => rfl)
  | .call args kw =>
      leafAgrees (.call args kw) (fun v => callVal v args kw)
        (fun _ _ => rfl) (fun _ => rfl) (fun _ => rfl)
  | .binOp op l r =>
      binOpAgrees op l r (evalOperandDebug_agrees l) (evalOperandDebug_agrees r)
  | .chain items => chainAgrees items (evalDebugList_agrees items)

theorem evalOperandDebug_agrees : ∀ (o : Expr ⊕ Val), OperandAgrees o
  | .inl e => by
      intro v st
      have he := evalDebug_agrees e v st
      constructor
      · intro r st' h
        exact he.1 r st' h
      · intro err st' h
        obtain ⟨h1, h2, h3⟩ := he.2 err st' h
        exact ⟨h1, h2, ⟨_, h3, rfl, rfl⟩⟩
  | .inr lit => by
      intro v st
      constructor
      · intro r st' h
        injection h with h1 h2
        injection h1 with h1
        subst h1; subst h2
        exact ⟨rfl, rfl, rfl⟩
      · intro err st' h
        injection h with h1 _
        exact Except.noConfusion h1

theorem evalDebugList_agrees : ∀ (es : List Expr), ListAgrees es
  | [] => by
      intro v st
      constructor
      · intro r st' h
        injection h with h1 h2
        injection h1 with h1
        subst h1; subst h2
        exact ⟨rfl, rfl, rfl⟩
      · intro err st' h
        injection h with h1 _
        exact Except.noConfusion h1
  | e :: es =>
      consAgrees e es (evalDebug_agrees e) (evalDebugList_agrees es)

end

/-- C6: whenever evaluation of an expression on an input fails, the
final diagnostics record - regardless of the channel's prior contents -
carries the first-intercepting sub-expression and the value it received
in its inner fields (preserved by every outer re-catch), and the
top-level expression and its input in its outer fields (refreshed by
each re-catch on the way out); the propagated exception itself names
the same inner frame. -/
theorem c6_debug_snapshot : ∀ (e : Expr) (x : Val) (st : Option QDebug)
    (err : RichErr) (st' : Option QDebug),
    evalDebug e x st = (.error err, st') →
    evalRes e x = .error err
    ∧ firstFail e x = some (err.atExpr, err.atVal)
    ∧ st' = some ⟨e, err.atExpr, x, err.atVal⟩ :=
  fun e x st err st' h => (evalDebug_agrees e x st).2 err st' h

/-- C6 (witness): evaluating `Q.upper().foo` on `"test"` fails at the
inner `.foo` frame with inner value `"TEST"`, leaving the snapshot
(full expression, `.foo`, `"test"`, `"TEST"`). -/
theorem c6_debug_snapshot_witness :
    evalRes (.chain [.attr "upper", .call [] [], .attr "foo"]) (.str "test")
      = .error ⟨.attributeError "no attribute foo", .attr "foo", .str "TEST"⟩
    ∧ firstFail (.chain [.attr "upper", .call [] [], .attr "foo"]) (.str "test")
      = some (.attr "foo", .str "TEST")
    ∧ (some ⟨.chain [.attr "upper", .call [] [], .attr "foo"], .attr "foo",
          .str "test", .str "TEST"⟩ : Option QDebug)
      = some ⟨.chain [.attr "upper", .call [] [], .attr "foo"], .attr "foo",
          .str "test", .str "TEST"⟩ :=
  c6_debug_snapshot (.chain [.attr "upper", .call [] [], .attr "foo"])
    (.str "test") Option.none
    ⟨.attributeError "no attribute foo", .attr "foo", .str "TEST"⟩
    (some ⟨.chain [.attr "upper", .call [] [], .attr "foo"], .attr "foo",
      .str "test", .str "TEST"⟩) rfl

end Soupy
